import Mathlib

/-!
Shallow embedding of the FinMate market-data Lambda functions and proofs
about their retry, fallback and caching behaviour.

The embedding covers:
* src/lambda/market-data-python.py : get_yahoo_chart_price,
  get_yahoo_company_info, get_mock_market_data and handler (the raw
  HTTP scraper);
* src/market_data_python.py : the yfinance-based handler variant;
* src/lambda/python/market-data-python.py : the stdlib-only variant.

Network responses and random draws are passed in explicitly as oracle
arguments, prices are rationals, and Python dicts are association lists
updated in insertion order.
-/

namespace FinMate

/-- One quote block of the chart JSON: the close field, a list of
nullable closing prices. -/
structure QuoteBlock where
  close : List (Option ℚ)
deriving DecidableEq

/-- One element of chart.result. The quote field models
indicators.quote: none when the key is absent (the code then substitutes
a singleton empty dict, so the closes come out empty), some l when the
key is present with list value l. -/
structure ChartResult where
  quote : Option (List QuoteBlock)
deriving DecidableEq

/-- Parsed body of a chart response. The result field models
chart.result; the empty list covers both a missing or falsy chart object
and an empty result list, which the code treats identically. -/
structure ChartJson where
  result : List ChartResult
deriving DecidableEq

/-- Outcome of one chart request attempt: a request exception, or an
HTTP response with a status code and, when the body parses, the parsed
JSON (none models a JSON parse error). -/
inductive ChartResp where
  | exn : ChartResp
  | http : Nat → Option ChartJson → ChartResp
deriving DecidableEq

/-- What a single iteration of the retry loop in get_yahoo_chart_price
does with the response of that attempt: retry (sleep and continue, also
the 429 backoff branch), succeed with the four computed numbers, or
raise an uncaught IndexError (a present-but-empty indicators.quote
list indexed at position zero). -/
inductive AttemptStep where
  | retry : AttemptStep
  | success : ℚ → ℚ → ℚ → ℚ → AttemptStep
  | crash : AttemptStep
deriving DecidableEq

/-- The non-null closing prices extracted from the first chart result.
The access path in the source indexes the quote list at position zero
after substituting a default singleton for a missing key, so a
present-but-empty list raises IndexError, encoded here as none. -/
def nonNullCloses (r : ChartResult) : Option (List ℚ) :=
  match r.quote with
  | none => some []
  | some [] => none
  | some (qb :: _) => some (qb.close.filterMap id)

/-- One iteration of the retry loop of get_yahoo_chart_price. -/
def chartAttempt (r : ChartResp) : AttemptStep :=
  match r with
  | .exn => .retry
  | .http status body =>
    if status ≠ 200 then .retry
    else
      match body with
      | none => .retry
      | some j =>
        match j.result with
        | [] => .retry
        | res :: _ =>
          match nonNullCloses res with
          | none => .crash
          | some closes =>
            if closes.length < 2 then .retry
            else
              let current_price := closes.getLastD 0
              let previous_close := closes.dropLast.getLastD 0
              let change := current_price - previous_close
              let change_percent :=
                if 0 < previous_close then change / previous_close * 100 else 0
              .success current_price previous_close change change_percent

/-- Overall outcome of get_yahoo_chart_price: the quadruple of numbers,
the all-attempts-failed quadruple of None values, or an uncaught
exception. -/
inductive ChartOut where
  | ok : ℚ → ℚ → ℚ → ℚ → ChartOut
  | failed : ChartOut
  | crash : ChartOut
deriving DecidableEq

/-- Retry loop of get_yahoo_chart_price from a given attempt index with
the given number of attempts left. -/
def chartLoopFrom (resps : Nat → ChartResp) : Nat → Nat → ChartOut
  | _, 0 => .failed
  | a, fuel + 1 =>
    match chartAttempt (resps a) with
    | .success c p ch pc => .ok c p ch pc
    | .crash => .crash
    | .retry => chartLoopFrom resps (a + 1) fuel

/-- Number of request attempts actually issued by the retry loop of
get_yahoo_chart_price. -/
def chartAttemptsFrom (resps : Nat → ChartResp) : Nat → Nat → Nat
  | _, 0 => 0
  | a, fuel + 1 =>
    match chartAttempt (resps a) with
    | .retry => 1 + chartAttemptsFrom resps (a + 1) fuel
    | _ => 1

/-- get_yahoo_chart_price: the retry loop over at most max_retries
attempts (default 3). -/
def get_yahoo_chart_price (resps : Nat → ChartResp) (max_retries : Nat := 3) : ChartOut :=
  chartLoopFrom resps 0 max_retries

/-- Backoff delay computed in the HTTP 429 branch of
get_yahoo_chart_price: 2 to the attempt number, times a random factor
drawn uniformly from the interval from 2 to 5. -/
def chartBackoff (attempt : Nat) (factor : ℚ) : ℚ :=
  2 ^ attempt * factor

/-- Uppercasing of a ticker, modelling the Python str.upper call on the
ASCII tickers involved (character-wise Char.toUpper). -/
def strUpper (s : String) : String := ⟨s.data.map Char.toUpper⟩

/-- Parsed quoteSummary result element: assetProfile.sector and
summaryDetail.beta.raw, each possibly absent. -/
structure InfoJson where
  sector : Option String
  beta : Option ℚ
deriving DecidableEq

/-- Outcome of one quoteSummary request attempt. The body is none for a
JSON parse error; the list models quoteSummary.result (an empty list
makes the index access raise, which the code catches and retries). -/
inductive InfoResp where
  | exn : InfoResp
  | http : Nat → Option (List InfoJson) → InfoResp
deriving DecidableEq

/-- One iteration of the retry loop of get_yahoo_company_info: some
(sector, beta) when the attempt succeeds (truthy sector and non-null
beta), none when it falls through to the next attempt. -/
def infoAttempt (r : InfoResp) : Option (String × ℚ) :=
  match r with
  | .exn => none
  | .http status body =>
    if status ≠ 200 then none
    else
      match body with
      | none => none
      | some [] => none
      | some (j :: _) =>
        match j.sector, j.beta with
        | some s, some b => if s = "" then none else some (s, b)
        | some _, none => none
        | none, _ => none

/-- Static fallback table of get_yahoo_company_info, keyed by the
uppercased ticker. -/
def infoDefaults (ticker : String) : String × ℚ :=
  if strUpper ticker ∈ ["AAPL", "MSFT", "GOOGL", "GOOG", "AMZN", "TSLA", "META", "NVDA"] then
    ("Technology", 1.2)
  else if strUpper ticker ∈ ["JPM", "BAC", "WFC", "GS", "MS", "C"] then
    ("Financial Services", 1.1)
  else if strUpper ticker ∈ ["JNJ", "PFE", "UNH", "ABBV", "MRK"] then
    ("Healthcare", 0.9)
  else
    ("Unknown", 1.0)

/-- Retry loop of get_yahoo_company_info from a given attempt index. -/
def infoLoopFrom (resps : Nat → InfoResp) (ticker : String) : Nat → Nat → String × ℚ
  | _, 0 => infoDefaults ticker
  | a, fuel + 1 =>
    match infoAttempt (resps a) with
    | some sb => sb
    | none => infoLoopFrom resps ticker (a + 1) fuel

/-- get_yahoo_company_info: retry loop (default 2 attempts) falling back
to the static defaults table. -/
def get_yahoo_company_info (resps : Nat → InfoResp) (ticker : String)
    (max_retries : Nat := 2) : String × ℚ :=
  infoLoopFrom resps ticker 0 max_retries

/-- One row of the static mock table: base price, sector and beta. -/
structure MockEntry where
  price : ℚ
  sector : String
  beta : ℚ
deriving DecidableEq

/-- The static mock_stocks table of get_mock_market_data. -/
def mock_stocks : List (String × MockEntry) :=
  [ ("AAPL", ⟨235.0, "Technology", 1.2⟩)
  , ("MSFT", ⟨425.0, "Technology", 1.1⟩)
  , ("GOOGL", ⟨165.0, "Technology", 1.05⟩)
  , ("GOOG", ⟨167.0, "Technology", 1.05⟩)
  , ("AMZN", ⟨180.0, "Consumer Cyclical", 1.15⟩)
  , ("TSLA", ⟨265.0, "Consumer Cyclical", 2.0⟩)
  , ("META", ⟨580.0, "Technology", 1.3⟩)
  , ("NVDA", ⟨135.0, "Technology", 1.7⟩)
  , ("JPM", ⟨215.0, "Financial Services", 1.1⟩)
  , ("BAC", ⟨42.0, "Financial Services", 1.2⟩)
  , ("WFC", ⟨60.0, "Financial Services", 1.15⟩)
  , ("JNJ", ⟨160.0, "Healthcare", 0.6⟩)
  , ("PFE", ⟨29.0, "Healthcare", 0.7⟩)
  , ("UNH", ⟨570.0, "Healthcare", 0.75⟩)
  , ("V", ⟨285.0, "Financial Services", 1.0⟩)
  , ("MA", ⟨490.0, "Financial Services", 1.05⟩)
  , ("WMT", ⟨82.0, "Consumer Defensive", 0.55⟩)
  , ("DIS", ⟨115.0, "Communication Services", 1.15⟩)
  , ("NFLX", ⟨720.0, "Communication Services", 1.3⟩)
  , ("AMD", ⟨155.0, "Technology", 1.8⟩) ]

/-- Table row used for a ticker: the mock_stocks entry for the
uppercased ticker, or the generic fallback of base price 100.0, sector
Unknown and beta 1.0. -/
def mockEntry (ticker : String) : MockEntry :=
  (mock_stocks.lookup (strUpper ticker)).getD ⟨100.0, "Unknown", 1.0⟩

/-- get_mock_market_data: base values from the table perturbed by the
random variation drawn from the interval from -0.03 to 0.03. Returns
(current_price, previous_close, change, change_percent, sector, beta). -/
def get_mock_market_data (ticker : String) (variation : ℚ) :
    ℚ × ℚ × ℚ × ℚ × String × ℚ :=
  let e := mockEntry ticker
  let current_price := e.price * (1 + variation)
  let previous_close := e.price * (1 - variation * 0.5)
  let change := current_price - previous_close
  let change_percent :=
    if 0 < previous_close then change / previous_close * 100 else 0
  (current_price, previous_close, change, change_percent, e.sector, e.beta)

/-- Rounding to two decimals, as the Python round(x, 2). -/
def round2 (q : ℚ) : ℚ := ((round (q * 100) : ℤ) : ℚ) / 100

/-- A per-ticker quote object as placed into the quotes map:
price, change and changePercent, each rounded to two decimals. -/
structure StockQuote where
  price : ℚ
  change : ℚ
  changePercent : ℚ
deriving DecidableEq

/-- Per-ticker oracle for one scraper invocation: the chart responses,
the quoteSummary responses, and the random variation used if the mock
fallback is reached. -/
structure TickerEnv where
  chart : Nat → ChartResp
  info : Nat → InfoResp
  variation : ℚ

/-- Per-ticker work of the scraper handler on a cache miss: chart fetch,
then company info on success, or the mock-data fallback on chart
failure; none models the uncaught exception propagating to the
top-level handler. -/
def processTicker (e : TickerEnv) (ticker : String) :
    Option (StockQuote × String × ℚ) :=
  match get_yahoo_chart_price e.chart 3 with
  | .crash => none
  | .ok c _p ch pc =>
    some (⟨round2 c, round2 ch, round2 pc⟩, get_yahoo_company_info e.info ticker 2)
  | .failed =>
    let md := get_mock_market_data ticker e.variation
    some (⟨round2 md.1, round2 md.2.2.1, round2 md.2.2.2.1⟩, md.2.2.2.2.1, md.2.2.2.2.2)

/-- Python dict assignment on an association list: replace the value in
place when the key is present, else append at the end. -/
def upsert {β : Type} (k : String) (v : β) : List (String × β) → List (String × β)
  | [] => [(k, v)]
  | (k', v') :: l => if k = k' then (k, v) :: l else (k', v') :: upsert k v l

/-- The effect of an upsert on the key list. -/
def insKey (k : String) : List String → List String
  | [] => [k]
  | k' :: l => if k = k' then k' :: l else k' :: insKey k l

/-- Loop state of the scraper handler: the three response maps, the
in-invocation cache, and a log of the tickers actually fetched. -/
structure HState where
  quotes : List (String × StockQuote)
  sectors : List (String × String)
  betas : List (String × ℚ)
  cache : List (String × (StockQuote × String × ℚ))
  fetched : List String

/-- The empty loop state the scraper handler starts from. -/
def initState : HState := ⟨[], [], [], [], []⟩

/-- Main loop of the scraper handler: per ticker, serve from the
in-invocation cache or fetch and record. The Boolean is true when an
uncaught exception aborted the loop. -/
def handlerLoop (env : String → TickerEnv) : List String → HState → HState × Bool
  | [], st => (st, false)
  | ticker :: rest, st =>
    match st.cache.lookup ticker with
    | some (q, s, b) =>
      handlerLoop env rest
        { st with
          quotes := upsert ticker q st.quotes
          sectors := upsert ticker s st.sectors
          betas := upsert ticker b st.betas }
    | none =>
      match processTicker (env ticker) ticker with
      | none => ({ st with fetched := st.fetched ++ [ticker] }, true)
      | some (q, s, b) =>
        handlerLoop env rest
          { quotes := upsert ticker q st.quotes
            sectors := upsert ticker s st.sectors
            betas := upsert ticker b st.betas
            cache := upsert ticker (q, s, b) st.cache
            fetched := st.fetched ++ [ticker] }

/-- The tickers field of the Lambda event: absent, a list of strings,
or a non-list JSON value with the given truthiness. -/
inductive TickersField where
  | absent : TickersField
  | strList : List String → TickersField
  | nonList : Bool → TickersField
deriving DecidableEq

/-- A Lambda event, reduced to the only field the handlers read. -/
structure LambdaEvent where
  tickers : TickersField
deriving DecidableEq

/-- The validation condition shared by all three handlers: the value of
event.get with default empty list is falsy, or is not a list. -/
def invalidTickers : TickersField → Bool
  | .absent => true
  | .strList l => l.isEmpty
  | .nonList _ => true

/-- A handler response: the 400 error, a 200 body with the three maps
and a timestamp, or the top-level 500 error. -/
inductive HandlerResult where
  | badRequest : HandlerResult
  | ok : List (String × StockQuote) → List (String × String) → List (String × ℚ) →
      String → HandlerResult
  | internalError : HandlerResult
deriving DecidableEq

/-- HTTP status code of each handler result, per the literals in the
source. -/
def statusCode : HandlerResult → Nat
  | .badRequest => 400
  | .ok _ _ _ _ => 200
  | .internalError => 500

/-- The quotes map of a 200 response (empty otherwise). -/
def resultQuotes : HandlerResult → List (String × StockQuote)
  | .ok q _ _ _ => q
  | _ => []

/-- The sectors map of a 200 response (empty otherwise). -/
def resultSectors : HandlerResult → List (String × String)
  | .ok _ s _ _ => s
  | _ => []

/-- The betas map of a 200 response (empty otherwise). -/
def resultBetas : HandlerResult → List (String × ℚ)
  | .ok _ _ b _ => b
  | _ => []

/-- The scraper handler: validation, then the per-ticker loop; returns
the response together with the log of tickers actually fetched. -/
def handler (env : String → TickerEnv) (now : String) (ev : LambdaEvent) :
    HandlerResult × List String :=
  match ev.tickers with
  | .absent => (.badRequest, [])
  | .nonList _ => (.badRequest, [])
  | .strList l =>
    if l.isEmpty then (.badRequest, [])
    else
      let r := handlerLoop env l initState
      if r.2 then (.internalError, r.1.fetched)
      else (.ok r.1.quotes r.1.sectors r.1.betas now, r.1.fetched)

/-- Info dict of the yfinance variant: the sector and beta fields, each
possibly absent. -/
structure YfInfo where
  sector : Option String
  beta : Option ℚ
deriving DecidableEq

/-- Per-ticker oracle for the yfinance variant: the closing prices of
the two-day history (none models an exception, the empty list an empty
frame), and the info dict (none models an exception). -/
structure YfEnv where
  hist : Option (List ℚ)
  info : Option YfInfo

/-- Per-ticker work of the yfinance variant, including its two fallback
layers: per-ticker defaults of price 0, sector Unknown and beta 1.0 on
history failure, and a ticker-keyed table on info failure. -/
def yfProcess (e : YfEnv) (ticker : String) : StockQuote × String × ℚ :=
  match e.hist with
  | none => (⟨0, 0, 0⟩, "Unknown", 1.0)
  | some [] => (⟨0, 0, 0⟩, "Unknown", 1.0)
  | some (c0 :: cs) =>
    let closes := c0 :: cs
    let current_price := closes.getLastD 0
    let previous_close :=
      if 1 < closes.length then closes.dropLast.getLastD 0 else current_price
    let change := current_price - previous_close
    let change_percent :=
      if 0 < previous_close then change / previous_close * 100 else 0
    let q : StockQuote := ⟨round2 current_price, round2 change, round2 change_percent⟩
    match e.info with
    | some info =>
      let b :=
        match info.beta with
        | some b => if b = 0 then 1.0 else b
        | none => 1.0
      (q, info.sector.getD "Technology", b)
    | none =>
      if strUpper ticker ∈ ["AAPL", "MSFT", "GOOGL", "AMZN", "TSLA", "META", "NVDA"] then
        (q, "Technology", 1.2)
      else if strUpper ticker ∈ ["JPM", "BAC", "WFC", "GS"] then
        (q, "Financial Services", 1.1)
      else
        (q, "Unknown", 1.0)

/-- The yfinance-based handler variant. -/
def yfHandler (env : String → YfEnv) (now : String) (ev : LambdaEvent) : HandlerResult :=
  match ev.tickers with
  | .absent => .badRequest
  | .nonList _ => .badRequest
  | .strList l =>
    if l.isEmpty then .badRequest
    else
      let fin := l.foldl
        (fun st t =>
          let r := yfProcess (env t) t
          (upsert t r.1 st.1, upsert t r.2.1 st.2.1, upsert t r.2.2 st.2.2))
        (([] : List (String × StockQuote)), ([] : List (String × String)),
          ([] : List (String × ℚ)))
      .ok fin.1 fin.2.1 fin.2.2 now

/-- The meta object of the stdlib-variant chart response, with the two
price fields it reads. -/
structure UMeta where
  regularMarketPrice : Option ℚ
  previousClose : Option ℚ
deriving DecidableEq

/-- Chart body of the stdlib variant: the list chart.result, the empty
list covering a missing or falsy chart object or result list. -/
structure UChartData where
  result : List UMeta
deriving DecidableEq

/-- The beta field shape in the stdlib variant: a dict with an optional
raw field, or a bare scalar (coerced through truthiness). -/
inductive UBeta where
  | dict : Option ℚ → UBeta
  | scalar : ℚ → UBeta
deriving DecidableEq

/-- One quoteSummary result element as read by the stdlib variant. -/
structure UInfoResult where
  sector : Option String
  beta : Option UBeta
deriving DecidableEq

/-- Info body of the stdlib variant: the list quoteSummary.result, the
empty list covering a missing or falsy quoteSummary object or result. -/
structure UInfoJson where
  result : List UInfoResult
deriving DecidableEq

/-- Per-ticker oracle for the stdlib variant: the chart body and the
info body, none modelling an exception or parse failure of the
respective request. -/
structure UEnv where
  chart : Option UChartData
  info : Option UInfoJson

/-- Per-ticker step of the stdlib-only variant, updating the three
maps. Note that the info branch with an empty quoteSummary result sets
no sector and no beta entry at all for the ticker. -/
def uProcess (e : UEnv) (ticker : String)
    (st : List (String × StockQuote) × List (String × String) × List (String × ℚ)) :
    List (String × StockQuote) × List (String × String) × List (String × ℚ) :=
  match e.chart with
  | none =>
    (upsert ticker ⟨0, 0, 0⟩ st.1, upsert ticker "Unknown" st.2.1,
      upsert ticker 1.0 st.2.2)
  | some cd =>
    match cd.result with
    | [] =>
      (upsert ticker ⟨0, 0, 0⟩ st.1, upsert ticker "Unknown" st.2.1,
        upsert ticker 1.0 st.2.2)
    | m :: _ =>
      let current_price := m.regularMarketPrice.getD 0
      let previous_close := m.previousClose.getD current_price
      let change := current_price - previous_close
      let change_percent :=
        if 0 < previous_close then change / previous_close * 100 else 0
      let q1 := upsert ticker
        ⟨round2 current_price, round2 change, round2 change_percent⟩ st.1
      match e.info with
      | none => (q1, upsert ticker "Unknown" st.2.1, upsert ticker 1.0 st.2.2)
      | some ij =>
        match ij.result with
        | [] => (q1, st.2.1, st.2.2)
        | r :: _ =>
          let b :=
            match r.beta with
            | none => 1.0
            | some (.dict raw) => raw.getD 1.0
            | some (.scalar v) => if v = 0 then 1.0 else v
          (q1, upsert ticker (r.sector.getD "Unknown") st.2.1, upsert ticker b st.2.2)

/-- The stdlib-only handler variant. -/
def uHandler (env : String → UEnv) (now : String) (ev : LambdaEvent) : HandlerResult :=
  match ev.tickers with
  | .absent => .badRequest
  | .nonList _ => .badRequest
  | .strList l =>
    if l.isEmpty then .badRequest
    else
      let fin := l.foldl (fun st t => uProcess (env t) t st)
        (([] : List (String × StockQuote)), ([] : List (String × String)),
          ([] : List (String × ℚ)))
      .ok fin.1 fin.2.1 fin.2.2 now

/-! ### Association-list lemmas for the dict model -/

lemma lookup_cons {β : Type} (t k : String) (v : β) (l : List (String × β)) :
    List.lookup t ((k, v) :: l) = if t = k then some v else List.lookup t l := by
  by_cases h : t = k
  · simp [List.lookup, h]
  · have hb : (t == k) = false := beq_false_of_ne h
    simp [List.lookup, hb, h]

lemma lookup_upsert_self {β : Type} (k : String) (v : β) (l : List (String × β)) :
    (upsert k v l).lookup k = some v := by
  induction l with
  | nil => simp [upsert, lookup_cons]
  | cons p l ih =>
    obtain ⟨k', v'⟩ := p
    by_cases h : k = k' <;> simp [upsert, h, lookup_cons, ih]

lemma lookup_upsert_ne {β : Type} (k t : String) (v : β) (l : List (String × β))
    (h : t ≠ k) : (upsert k v l).lookup t = l.lookup t := by
  induction l with
  | nil => simp [upsert, lookup_cons, h]
  | cons p l ih =>
    obtain ⟨k', v'⟩ := p
    by_cases hk : k = k'
    · subst hk
      simp [upsert, lookup_cons, h]
    · by_cases ht : t = k' <;> simp [upsert, hk, lookup_cons, ht, ih]

lemma upsert_map_fst {β : Type} (k : String) (v : β) (l : List (String × β)) :
    (upsert k v l).map Prod.fst = insKey k (l.map Prod.fst) := by
  induction l with
  | nil => simp [upsert, insKey]
  | cons p l ih =>
    obtain ⟨k', v'⟩ := p
    by_cases h : k = k' <;> simp [upsert, insKey, h, ih]

lemma mem_insKey (t k : String) (ks : List String) :
    t ∈ insKey k ks ↔ t = k ∨ t ∈ ks := by
  induction ks with
  | nil => simp [insKey]
  | cons k' ks ih =>
    by_cases h : k = k'
    · subst h; simp [insKey]
    · simp [insKey, h, ih]
      tauto

lemma insKey_of_mem (k : String) (ks : List String) (h : k ∈ ks) : insKey k ks = ks := by
  induction ks with
  | nil => simp at h
  | cons k' ks ih =>
    by_cases hk : k = k'
    · simp [insKey, hk]
    · have : k ∈ ks := by
        rcases List.mem_cons.mp h with h1 | h1
        · exact absurd h1 hk
        · exact h1
      simp [insKey, hk, ih this]

lemma insKey_of_not_mem (k : String) (ks : List String) (h : k ∉ ks) :
    insKey k ks = ks ++ [k] := by
  induction ks with
  | nil => simp [insKey]
  | cons k' ks ih =>
    have hk : k ≠ k' := fun hc => h (hc ▸ List.mem_cons_self k' ks)
    have : k ∉ ks := fun hc => h (List.mem_cons_of_mem _ hc)
    simp [insKey, hk, ih this]

lemma insKey_nodup (k : String) (ks : List String) (h : ks.Nodup) :
    (insKey k ks).Nodup := by
  by_cases hm : k ∈ ks
  · rwa [insKey_of_mem k ks hm]
  · rw [insKey_of_not_mem k ks hm]
    simp [List.nodup_append, h, hm]

lemma lookup_eq_none_iff {β : Type} (t : String) (l : List (String × β)) :
    l.lookup t = none ↔ t ∉ l.map Prod.fst := by
  induction l with
  | nil => simp
  | cons p l ih =>
    obtain ⟨k', v'⟩ := p
    by_cases h : t = k' <;> simp [lookup_cons, h, ih]

lemma lookup_isSome_iff {β : Type} (t : String) (l : List (String × β)) :
    (l.lookup t).isSome ↔ t ∈ l.map Prod.fst := by
  rcases hl : l.lookup t with _ | v
  · rw [lookup_eq_none_iff] at hl
    simp [hl]
  · have hmem : t ∈ l.map Prod.fst := by
      by_contra hc
      rw [(lookup_eq_none_iff t l).mpr hc] at hl
      cases hl
    simp [hmem]

lemma upsert_of_lookup_none {β : Type} (k : String) (v : β) (l : List (String × β))
    (h : l.lookup k = none) : upsert k v l = l ++ [(k, v)] := by
  induction l with
  | nil => simp [upsert]
  | cons p l ih =>
    obtain ⟨k', v'⟩ := p
    rw [lookup_cons] at h
    by_cases hk : k = k'
    · rw [if_pos hk] at h; cases h
    · rw [if_neg hk] at h
      simp [upsert, hk, ih h]


/-! ### Retry-loop lemmas -/

lemma chartAttemptsFrom_le (resps : Nat → ChartResp) (a f : Nat) :
    chartAttemptsFrom resps a f ≤ f := by
  induction f generalizing a with
  | zero => simp [chartAttemptsFrom]
  | succ f ih =>
    cases h : chartAttempt (resps a) with
    | retry =>
      simp only [chartAttemptsFrom, h]
      have := ih (a + 1)
      omega
    | success c p ch pc => simp only [chartAttemptsFrom, h]; omega
    | crash => simp only [chartAttemptsFrom, h]; omega

lemma chartLoopFrom_failed (resps : Nat → ChartResp) (a f : Nat)
    (h : ∀ k, a ≤ k → k < a + f → chartAttempt (resps k) = AttemptStep.retry) :
    chartLoopFrom resps a f = ChartOut.failed := by
  induction f generalizing a with
  | zero => rfl
  | succ f ih =>
    have ha : chartAttempt (resps a) = AttemptStep.retry := h a le_rfl (by omega)
    simp only [chartLoopFrom, ha]
    exact ih (a + 1) (fun k hk1 hk2 => h k (by omega) (by omega))

lemma chartAttempt_success_eq (r : ChartResp) (c p ch pc : ℚ)
    (h : chartAttempt r = AttemptStep.success c p ch pc) :
    ch = c - p ∧ pc = (if 0 < p then (c - p) / p * 100 else 0) := by
  cases r with
  | exn => cases h
  | http status body =>
    by_cases hs : status ≠ 200
    · simp [chartAttempt, hs] at h
    · rcases body with _ | j
      · simp [chartAttempt, hs] at h
      · rcases hr : j.result with _ | ⟨res, rest⟩
        · simp [chartAttempt, hs, hr] at h
        · rcases hn : nonNullCloses res with _ | closes
          · simp [chartAttempt, hs, hr, hn] at h
          · by_cases hl : closes.length < 2
            · simp [chartAttempt, hs, hr, hn, hl] at h
            · simp [chartAttempt, hs, hr, hn, hl] at h
              obtain ⟨e1, e2, e3, e4⟩ := h
              constructor
              · rw [← e3, ← e1, ← e2]
              · rw [← e4, ← e1, ← e2]

lemma chartLoopFrom_ok_attempt (resps : Nat → ChartResp) (a f : Nat) (c p ch pc : ℚ)
    (h : chartLoopFrom resps a f = ChartOut.ok c p ch pc) :
    ∃ k, chartAttempt (resps k) = AttemptStep.success c p ch pc := by
  induction f generalizing a with
  | zero => simp [chartLoopFrom] at h
  | succ f ih =>
    cases hr : chartAttempt (resps a) with
    | retry =>
      simp only [chartLoopFrom, hr] at h
      exact ih (a + 1) h
    | success c' p' ch' pc' =>
      simp only [chartLoopFrom, hr] at h
      obtain ⟨e1, e2, e3, e4⟩ := ChartOut.ok.inj h
      exact ⟨a, by rw [hr, e1, e2, e3, e4]⟩
    | crash => simp only [chartLoopFrom, hr] at h; cases h

/-- C1 (amended): get_yahoo_chart_price performs at most N request
attempts, and when every attempt takes a retry branch (no attempt fully
succeeds and no attempt raises the uncaught IndexError on a
present-but-empty quote list), it returns the None quadruple. -/
theorem C1_retry_budget_and_fallback (resps : Nat → ChartResp) (N : Nat) :
    chartAttemptsFrom resps 0 N ≤ N ∧
    ((∀ k < N, chartAttempt (resps k) = AttemptStep.retry) →
      get_yahoo_chart_price resps N = ChartOut.failed) := by
  refine ⟨chartAttemptsFrom_le resps 0 N, fun h => ?_⟩
  exact chartLoopFrom_failed resps 0 N (fun k hk1 hk2 => h k (by omega))

/-- C1 witness: all three attempts hit request exceptions, at most three
attempts are used, and the None quadruple is returned. -/
theorem C1_retry_budget_and_fallback_witness :
    chartAttemptsFrom (fun _ => ChartResp.exn) 0 3 ≤ 3 ∧
    get_yahoo_chart_price (fun _ => ChartResp.exn) 3 = ChartOut.failed :=
  ⟨(C1_retry_budget_and_fallback (fun _ => ChartResp.exn) 3).1,
    (C1_retry_budget_and_fallback (fun _ => ChartResp.exn) 3).2 (fun _ _ => rfl)⟩

/-- C1 counterexample: every attempt of this sequence returns HTTP 200
with parseable JSON, a non-empty chart result and fewer than two
non-null closes (a present-but-empty quote list), yet the function does
not return the None quadruple: the quote list indexed at position zero
raises an uncaught IndexError. -/
theorem C1_counterexample :
    chartAttempt (ChartResp.http 200 (some ⟨[⟨some []⟩]⟩)) = AttemptStep.crash ∧
    get_yahoo_chart_price (fun _ => ChartResp.http 200 (some ⟨[⟨some []⟩]⟩)) 3 =
      ChartOut.crash ∧
    ChartOut.crash ≠ ChartOut.failed :=
  ⟨rfl, rfl, fun hc => ChartOut.noConfusion hc⟩

/-- C4: every successful chart fetch satisfies change equals
current price minus previous close, and change percent equals
100 times change over previous close when the previous close is
positive, and zero otherwise. -/
theorem C4_change_and_percent (resps : Nat → ChartResp) (N : Nat) (c p ch pc : ℚ)
    (h : get_yahoo_chart_price resps N = ChartOut.ok c p ch pc) :
    ch = c - p ∧ pc = (if 0 < p then (c - p) / p * 100 else 0) := by
  obtain ⟨k, hk⟩ := chartLoopFrom_ok_attempt resps 0 N c p ch pc h
  exact chartAttempt_success_eq _ c p ch pc hk

/-- C4 witness: closes 10 then 12 give change 2 and percent 20. -/
theorem C4_change_and_percent_witness :
    (2 : ℚ) = 12 - 10 ∧
    (20 : ℚ) = (if (0 : ℚ) < 10 then ((12 : ℚ) - 10) / 10 * 100 else 0) :=
  C4_change_and_percent
    (fun _ => ChartResp.http 200 (some ⟨[⟨some [⟨[some 10, some 12]⟩]⟩]⟩)) 3
    12 10 2 20
    (by
      have hclo : List.filterMap id [some (10 : ℚ), some 12] = [10, 12] := rfl
      have hprev : (([10, 12] : List ℚ).dropLast.getLast?.getD 0) = 10 := rfl
      norm_num [get_yahoo_chart_price, chartLoopFrom, chartAttempt, nonNullCloses,
        hclo, hprev])

/-- C5: the 429 backoff delay in get_yahoo_chart_price is 2 to the
attempt number times the random factor; for a factor in the interval
from 2 to 5 the delay lies between 2 times 2 to the k and 5 times 2 to
the k, and for a fixed factor it is strictly increasing in k. -/
theorem C5_backoff_bounds (k : Nat) (f : ℚ) (h2 : 2 ≤ f) (h5 : f ≤ 5) :
    2 * 2 ^ k ≤ chartBackoff k f ∧ chartBackoff k f ≤ 5 * 2 ^ k ∧
      chartBackoff k f < chartBackoff (k + 1) f := by
  have hp : (0 : ℚ) < 2 ^ k := by positivity
  unfold chartBackoff
  refine ⟨by nlinarith, by nlinarith, ?_⟩
  have hs : (2 : ℚ) ^ (k + 1) = 2 * 2 ^ k := by ring
  rw [hs]
  nlinarith

/-- C5 witness at attempt 0 with factor 3. -/
theorem C5_backoff_bounds_witness :
    2 * 2 ^ 0 ≤ chartBackoff 0 3 ∧ chartBackoff 0 3 ≤ 5 * 2 ^ 0 ∧
      chartBackoff 0 3 < chartBackoff 1 3 :=
  C5_backoff_bounds 0 3 (by norm_num) (by norm_num)

lemma infoLoopFrom_defaults (resps : Nat → InfoResp) (t : String) (a f : Nat)
    (h : ∀ k, a ≤ k → k < a + f → infoAttempt (resps k) = none) :
    infoLoopFrom resps t a f = infoDefaults t := by
  induction f generalizing a with
  | zero => rfl
  | succ f ih =>
    have ha : infoAttempt (resps a) = none := h a le_rfl (by omega)
    simp only [infoLoopFrom, ha]
    exact ih (a + 1) (fun k hk1 hk2 => h k (by omega) (by omega))

/-- C6: when every attempt of get_yahoo_company_info fails to yield both
a sector and a beta, the result is the static table keyed by the
uppercased ticker: Technology 1.2 for the eight tech tickers, Financial
Services 1.1 for the six bank tickers, Healthcare 0.9 for the five
health tickers, Unknown 1.0 otherwise. -/
theorem C6_info_fallback_table (resps : Nat → InfoResp) (ticker : String) (N : Nat)
    (h : ∀ k < N, infoAttempt (resps k) = none) :
    get_yahoo_company_info resps ticker N =
      (if strUpper ticker ∈ ["AAPL", "MSFT", "GOOGL", "GOOG", "AMZN", "TSLA", "META", "NVDA"]
        then ("Technology", (1.2 : ℚ))
      else if strUpper ticker ∈ ["JPM", "BAC", "WFC", "GS", "MS", "C"]
        then ("Financial Services", 1.1)
      else if strUpper ticker ∈ ["JNJ", "PFE", "UNH", "ABBV", "MRK"]
        then ("Healthcare", 0.9)
      else ("Unknown", 1.0)) :=
  infoLoopFrom_defaults resps ticker 0 N (fun k h1 h2 => h k (by omega))

/-- C6 witness: the lowercase ticker aapl with both attempts failing
falls back to Technology with beta 1.2. -/
theorem C6_info_fallback_table_witness :
    get_yahoo_company_info (fun _ => InfoResp.exn) "aapl" 2 = ("Technology", (1.2 : ℚ)) := by
  rw [C6_info_fallback_table (fun _ => InfoResp.exn) "aapl" 2 (fun _ _ => rfl)]
  rw [if_pos (by decide : strUpper "aapl" ∈
    ["AAPL", "MSFT", "GOOGL", "GOOG", "AMZN", "TSLA", "META", "NVDA"])]

lemma lookup_price_ge (l : List (String × MockEntry))
    (h : ∀ p ∈ l, 29 ≤ p.2.price) (t : String) :
    29 ≤ ((l.lookup t).getD ⟨100.0, "Unknown", 1.0⟩).price := by
  induction l with
  | nil => norm_num
  | cons p l ih =>
    obtain ⟨k', v'⟩ := p
    rw [lookup_cons]
    by_cases ht : t = k'
    · rw [if_pos ht]
      simpa using h (k', v') (List.mem_cons_self _ _)
    · rw [if_neg ht]
      exact ih (fun q hq => h q (List.mem_cons_of_mem _ hq))

lemma mockEntry_price_ge (t : String) : 29 ≤ (mockEntry t).price := by
  have h : ∀ p ∈ mock_stocks, (29 : ℚ) ≤ p.2.price := by norm_num [mock_stocks]
  exact lookup_price_ge mock_stocks h (strUpper t)

/-- C10: for every ticker and variation in the interval from -0.03 to
0.03, the mock previous close is strictly positive (every base price is
at least 29), so the guarded division branch is taken; and the mock
current price is within three percent of the base price. -/
theorem C10_mock_safety (ticker : String) (v : ℚ)
    (hlo : -(3/100) ≤ v) (hhi : v ≤ 3/100) :
    0 < (get_mock_market_data ticker v).2.1 ∧
    (get_mock_market_data ticker v).2.2.2.1 =
      (get_mock_market_data ticker v).2.2.1 / (get_mock_market_data ticker v).2.1 * 100 ∧
    |(get_mock_market_data ticker v).1 - (mockEntry ticker).price| ≤
      3/100 * (mockEntry ticker).price ∧
    29 ≤ (mockEntry ticker).price := by
  have hb := mockEntry_price_ge ticker
  have hbpos : (0 : ℚ) < (mockEntry ticker).price := lt_of_lt_of_le (by norm_num) hb
  simp only [get_mock_market_data]
  have hprev : (0 : ℚ) < (mockEntry ticker).price * (1 - v * 0.5) := by nlinarith
  refine ⟨hprev, by rw [if_pos hprev], ?_, hb⟩
  have he : (mockEntry ticker).price * (1 + v) - (mockEntry ticker).price
      = (mockEntry ticker).price * v := by ring
  rw [he, abs_mul, abs_of_pos hbpos]
  have hv : |v| ≤ 3/100 := abs_le.mpr ⟨by linarith, hhi⟩
  calc (mockEntry ticker).price * |v| ≤ (mockEntry ticker).price * (3/100) :=
        mul_le_mul_of_nonneg_left hv (le_of_lt hbpos)
    _ = 3/100 * (mockEntry ticker).price := by ring

/-- C10 witness for ticker AAPL and variation 0.01. -/
theorem C10_mock_safety_witness :
    0 < (get_mock_market_data "AAPL" (1/100)).2.1 ∧
    (get_mock_market_data "AAPL" (1/100)).2.2.2.1 =
      (get_mock_market_data "AAPL" (1/100)).2.2.1 /
        (get_mock_market_data "AAPL" (1/100)).2.1 * 100 ∧
    |(get_mock_market_data "AAPL" (1/100)).1 - (mockEntry "AAPL").price| ≤
      3/100 * (mockEntry "AAPL").price ∧
    29 ≤ (mockEntry "AAPL").price :=
  C10_mock_safety "AAPL" (1/100) (by norm_num) (by norm_num)


/-! ### Handler-loop lemmas -/

lemma chartLoopFrom_ne_crash (resps : Nat → ChartResp) (a f : Nat)
    (h : ∀ k, chartAttempt (resps k) ≠ AttemptStep.crash) :
    chartLoopFrom resps a f ≠ ChartOut.crash := by
  induction f generalizing a with
  | zero => simp [chartLoopFrom]
  | succ f ih =>
    cases hr : chartAttempt (resps a) with
    | retry => simp only [chartLoopFrom, hr]; exact ih (a + 1)
    | success c p ch pc => simp [chartLoopFrom, hr]
    | crash => exact absurd hr (h a)

lemma processTicker_isSome (e : TickerEnv) (t : String)
    (hnc : ∀ k, chartAttempt (e.chart k) ≠ AttemptStep.crash) :
    (processTicker e t).isSome := by
  rcases hr : get_yahoo_chart_price e.chart 3 with ⟨c, p, ch, pc⟩ | _ | _
  · simp [processTicker, hr]
  · simp [processTicker, hr]
  · exact absurd hr (chartLoopFrom_ne_crash e.chart 0 3 hnc)

/-- Consistency of the loop state: every cached triple is present with
the same values in the three response maps. -/
def WfState (st : HState) : Prop :=
  ∀ t q s b, st.cache.lookup t = some (q, s, b) →
    st.quotes.lookup t = some q ∧ st.sectors.lookup t = some s ∧
      st.betas.lookup t = some b

lemma WfState_init : WfState initState := by
  intro t q s b h
  cases h

lemma WfState_hit (st : HState) (hwf : WfState st) (u : String)
    (q : StockQuote) (s : String) (b : ℚ)
    (hc : st.cache.lookup u = some (q, s, b)) :
    WfState { st with
      quotes := upsert u q st.quotes
      sectors := upsert u s st.sectors
      betas := upsert u b st.betas } := by
  intro t q' s' b' ht
  simp only at ht ⊢
  by_cases h : t = u
  · subst h
    obtain ⟨e1, e2, e3⟩ : q = q' ∧ s = s' ∧ b = b' := by
      simpa using hc.symm.trans ht
    subst e1; subst e2; subst e3
    exact ⟨lookup_upsert_self t q st.quotes, lookup_upsert_self t s st.sectors,
      lookup_upsert_self t b st.betas⟩
  · rw [lookup_upsert_ne u t q st.quotes h, lookup_upsert_ne u t s st.sectors h,
      lookup_upsert_ne u t b st.betas h]
    exact hwf t q' s' b' ht

lemma WfState_miss (st : HState) (hwf : WfState st) (u : String)
    (q : StockQuote) (s : String) (b : ℚ) (fet : List String) :
    WfState ⟨upsert u q st.quotes, upsert u s st.sectors, upsert u b st.betas,
      upsert u (q, s, b) st.cache, fet⟩ := by
  intro t q' s' b' ht
  simp only at ht ⊢
  by_cases h : t = u
  · subst h
    rw [lookup_upsert_self t (q, s, b) st.cache] at ht
    obtain ⟨e1, e2, e3⟩ : q = q' ∧ s = s' ∧ b = b' := by simpa using ht
    subst e1; subst e2; subst e3
    exact ⟨lookup_upsert_self t q st.quotes, lookup_upsert_self t s st.sectors,
      lookup_upsert_self t b st.betas⟩
  · rw [lookup_upsert_ne u t (q, s, b) st.cache h] at ht
    rw [lookup_upsert_ne u t q st.quotes h, lookup_upsert_ne u t s st.sectors h,
      lookup_upsert_ne u t b st.betas h]
    exact hwf t q' s' b' ht

lemma handlerLoop_cached_stable (env : String → TickerEnv) (l : List String)
    (st : HState)
    (hnc : ∀ s k, chartAttempt ((env s).chart k) ≠ AttemptStep.crash)
    (hwf : WfState st) (t : String) (q : StockQuote) (s : String) (b : ℚ)
    (hc : st.cache.lookup t = some (q, s, b)) :
    (handlerLoop env l st).1.quotes.lookup t = some q ∧
    (handlerLoop env l st).1.sectors.lookup t = some s ∧
    (handlerLoop env l st).1.betas.lookup t = some b ∧
    (handlerLoop env l st).1.cache.lookup t = some (q, s, b) := by
  induction l generalizing st with
  | nil =>
    obtain ⟨h1, h2, h3⟩ := hwf t q s b hc
    exact ⟨h1, h2, h3, hc⟩
  | cons u rest ih =>
    rcases hcu : st.cache.lookup u with _ | ⟨⟨qu, su, bu⟩⟩
    · have hpt := processTicker_isSome (env u) u (hnc u)
      rcases hpv : processTicker (env u) u with _ | ⟨⟨qv, sv, bv⟩⟩
      · rw [hpv] at hpt; cases hpt
      · have hut : t ≠ u := by
          intro he; subst he; rw [hcu] at hc; cases hc
        simp only [handlerLoop, hcu, hpv]
        exact ih _ (WfState_miss st hwf u qv sv bv (st.fetched ++ [u]))
          (by simpa [lookup_upsert_ne u t (qv, sv, bv) st.cache hut] using hc)
    · simp only [handlerLoop, hcu]
      exact ih _ (WfState_hit st hwf u qu su bu hcu) hc

lemma handlerLoop_first_value (env : String → TickerEnv) (l : List String)
    (t : String) (q : StockQuote) (s : String) (b : ℚ)
    (hnc : ∀ s k, chartAttempt ((env s).chart k) ≠ AttemptStep.crash)
    (hp : processTicker (env t) t = some (q, s, b)) (st : HState)
    (hwf : WfState st) (hc : st.cache.lookup t = none) (ht : t ∈ l) :
    (handlerLoop env l st).1.quotes.lookup t = some q ∧
    (handlerLoop env l st).1.sectors.lookup t = some s ∧
    (handlerLoop env l st).1.betas.lookup t = some b ∧
    (handlerLoop env l st).1.cache.lookup t = some (q, s, b) := by
  induction l generalizing st with
  | nil => cases ht
  | cons u rest ih =>
    by_cases hut : u = t
    · subst hut
      simp only [handlerLoop, hc, hp]
      exact handlerLoop_cached_stable env rest _ hnc
        (WfState_miss st hwf u q s b (st.fetched ++ [u])) u q s b
        (lookup_upsert_self u (q, s, b) st.cache)
    · have ht' : t ∈ rest := by
        rcases List.mem_cons.mp ht with h | h
        · exact absurd h.symm hut
        · exact h
      have htu : t ≠ u := fun he => hut he.symm
      rcases hcu : st.cache.lookup u with _ | ⟨⟨qu, su, bu⟩⟩
      · have hpt := processTicker_isSome (env u) u (hnc u)
        rcases hpv : processTicker (env u) u with _ | ⟨⟨qv, sv, bv⟩⟩
        · rw [hpv] at hpt; cases hpt
        · simp only [handlerLoop, hcu, hpv]
          exact ih _ (WfState_miss st hwf u qv sv bv (st.fetched ++ [u]))
            (by rw [lookup_upsert_ne u t (qv, sv, bv) st.cache htu]; exact hc) ht'
      · simp only [handlerLoop, hcu]
        exact ih _ (WfState_hit st hwf u qu su bu hcu) hc ht'


lemma handlerLoop_keys_invariant (env : String → TickerEnv) (l : List String)
    (st : HState)
    (hnc : ∀ s k, chartAttempt ((env s).chart k) ≠ AttemptStep.crash)
    (h1 : st.quotes.map Prod.fst = st.cache.map Prod.fst)
    (h2 : st.sectors.map Prod.fst = st.cache.map Prod.fst)
    (h3 : st.betas.map Prod.fst = st.cache.map Prod.fst)
    (h4 : st.fetched = st.cache.map Prod.fst)
    (h5 : (st.cache.map Prod.fst).Nodup) :
    (handlerLoop env l st).2 = false ∧
    (handlerLoop env l st).1.quotes.map Prod.fst =
      (handlerLoop env l st).1.cache.map Prod.fst ∧
    (handlerLoop env l st).1.sectors.map Prod.fst =
      (handlerLoop env l st).1.cache.map Prod.fst ∧
    (handlerLoop env l st).1.betas.map Prod.fst =
      (handlerLoop env l st).1.cache.map Prod.fst ∧
    (handlerLoop env l st).1.fetched = (handlerLoop env l st).1.cache.map Prod.fst ∧
    ((handlerLoop env l st).1.cache.map Prod.fst).Nodup ∧
    (∀ x, x ∈ (handlerLoop env l st).1.cache.map Prod.fst ↔
      x ∈ l ∨ x ∈ st.cache.map Prod.fst) := by
  induction l generalizing st with
  | nil =>
    exact ⟨rfl, h1, h2, h3, h4, h5, fun x => by simp [handlerLoop]⟩
  | cons u rest ih =>
    rcases hcu : st.cache.lookup u with _ | ⟨⟨qu, su, bu⟩⟩
    · have hpt := processTicker_isSome (env u) u (hnc u)
      rcases hpv : processTicker (env u) u with _ | ⟨⟨qv, sv, bv⟩⟩
      · rw [hpv] at hpt; cases hpt
      · simp only [handlerLoop, hcu, hpv]
        have hu_not : u ∉ st.cache.map Prod.fst := (lookup_eq_none_iff u st.cache).mp hcu
        have hq : (upsert u qv st.quotes).map Prod.fst =
            (upsert u (qv, sv, bv) st.cache).map Prod.fst := by
          rw [upsert_map_fst, upsert_map_fst, h1]
        have hsc : (upsert u sv st.sectors).map Prod.fst =
            (upsert u (qv, sv, bv) st.cache).map Prod.fst := by
          rw [upsert_map_fst, upsert_map_fst, h2]
        have hbt : (upsert u bv st.betas).map Prod.fst =
            (upsert u (qv, sv, bv) st.cache).map Prod.fst := by
          rw [upsert_map_fst, upsert_map_fst, h3]
        have hfet : st.fetched ++ [u] = (upsert u (qv, sv, bv) st.cache).map Prod.fst := by
          rw [upsert_map_fst, insKey_of_not_mem u _ hu_not, h4]
        have hnd : ((upsert u (qv, sv, bv) st.cache).map Prod.fst).Nodup := by
          rw [upsert_map_fst]; exact insKey_nodup u _ h5
        obtain ⟨g0, g1, g2, g3, g4, g5, g6⟩ :=
          ih ⟨upsert u qv st.quotes, upsert u sv st.sectors, upsert u bv st.betas,
            upsert u (qv, sv, bv) st.cache, st.fetched ++ [u]⟩ hq hsc hbt hfet hnd
        refine ⟨g0, g1, g2, g3, g4, g5, fun x => ?_⟩
        rw [g6 x, upsert_map_fst, mem_insKey]
        simp only [List.mem_cons]
        tauto
    · simp only [handlerLoop, hcu]
      have hu_mem : u ∈ st.cache.map Prod.fst := by
        rw [← lookup_isSome_iff, hcu]; rfl
      have hq : (upsert u qu st.quotes).map Prod.fst = st.cache.map Prod.fst := by
        rw [upsert_map_fst, h1, insKey_of_mem u _ hu_mem]
      have hsc : (upsert u su st.sectors).map Prod.fst = st.cache.map Prod.fst := by
        rw [upsert_map_fst, h2, insKey_of_mem u _ hu_mem]
      have hbt : (upsert u bu st.betas).map Prod.fst = st.cache.map Prod.fst := by
        rw [upsert_map_fst, h3, insKey_of_mem u _ hu_mem]
      obtain ⟨g0, g1, g2, g3, g4, g5, g6⟩ :=
        ih { st with
          quotes := upsert u qu st.quotes
          sectors := upsert u su st.sectors
          betas := upsert u bu st.betas } hq hsc hbt h4 h5
      refine ⟨g0, g1, g2, g3, g4, g5, fun x => ?_⟩
      rw [g6 x]
      simp only [List.mem_cons]
      have hxu : x = u → x ∈ List.map Prod.fst st.cache := fun h => h ▸ hu_mem
      tauto

lemma handlerLoop_fetched_extend (env : String → TickerEnv) (l : List String)
    (st : HState) :
    ∃ r, (handlerLoop env l st).1.fetched = st.fetched ++ r := by
  induction l generalizing st with
  | nil => exact ⟨[], by simp [handlerLoop]⟩
  | cons u rest ih =>
    rcases hcu : st.cache.lookup u with _ | ⟨⟨qu, su, bu⟩⟩
    · rcases hpv : processTicker (env u) u with _ | ⟨⟨qv, sv, bv⟩⟩
      · exact ⟨[u], by simp [handlerLoop, hcu, hpv]⟩
      · obtain ⟨r, hr⟩ := ih
          ⟨upsert u qv st.quotes, upsert u sv st.sectors, upsert u bv st.betas,
            upsert u (qv, sv, bv) st.cache, st.fetched ++ [u]⟩
        refine ⟨u :: r, ?_⟩
        simp only [handlerLoop, hcu, hpv]
        rw [hr]
        simp
    · obtain ⟨r, hr⟩ := ih { st with
        quotes := upsert u qu st.quotes
        sectors := upsert u su st.sectors
        betas := upsert u bu st.betas }
      refine ⟨r, ?_⟩
      simp only [handlerLoop, hcu]
      exact hr


lemma handlerLoop_fetched_nonempty (env : String → TickerEnv) (u : String)
    (rest : List String) :
    (handlerLoop env (u :: rest) initState).1.fetched ≠ [] := by
  rcases hpv : processTicker (env u) u with _ | ⟨⟨qv, sv, bv⟩⟩
  · simp [handlerLoop, initState, List.lookup, hpv]
  · simp only [handlerLoop, initState, List.lookup, hpv]
    obtain ⟨r, hr⟩ := handlerLoop_fetched_extend env rest
      ⟨upsert u qv [], upsert u sv [], upsert u bv [], upsert u (qv, sv, bv) [],
        [] ++ [u]⟩
    rw [hr]
    simp

/-- C3: the scraper handler returns the 400 error without issuing any
fetch exactly when the tickers value is missing, empty, or not a list,
and for every non-empty ticker list it proceeds to fetch. -/
theorem C3_validation_gate (env : String → TickerEnv) (now : String) (ev : LambdaEvent) :
    ((handler env now ev).1 = HandlerResult.badRequest ↔
      invalidTickers ev.tickers = true) ∧
    (invalidTickers ev.tickers = true → (handler env now ev).2 = []) ∧
    (∀ l, ev.tickers = TickersField.strList l → l ≠ [] →
      (handler env now ev).2 ≠ []) := by
  obtain ⟨tf⟩ := ev
  cases tf with
  | absent =>
    refine ⟨by simp [handler, invalidTickers], fun _ => rfl, ?_⟩
    intro l hl
    cases hl
  | nonList b =>
    refine ⟨by simp [handler, invalidTickers], fun _ => rfl, ?_⟩
    intro l hl
    cases hl
  | strList l =>
    cases l with
    | nil =>
      refine ⟨by simp [handler, invalidTickers], fun _ => rfl, ?_⟩
      intro l' hl' hne
      injection hl' with h
      exact absurd h.symm hne
    | cons u rest =>
      refine ⟨?_, ?_, ?_⟩
      · simp only [invalidTickers, List.isEmpty_cons, Bool.false_eq_true, iff_false]
        intro hbad
        simp only [handler, List.isEmpty_cons, Bool.false_eq_true, if_false] at hbad
        split at hbad <;> simp_all
      · intro hcontr
        simp [invalidTickers] at hcontr
      · intro l' hl' hne
        injection hl' with h
        subst h
        simp only [handler, List.isEmpty_cons, Bool.false_eq_true, if_false]
        split <;> exact handlerLoop_fetched_nonempty env u rest

/-- C3 witness: a one-element ticker list is not rejected and a fetch is
issued. -/
theorem C3_validation_gate_witness :
    (handler (fun _ => ⟨fun _ => ChartResp.exn, fun _ => InfoResp.exn, 0⟩) "ts"
      ⟨TickersField.strList ["A"]⟩).2 ≠ [] :=
  (C3_validation_gate (fun _ => ⟨fun _ => ChartResp.exn, fun _ => InfoResp.exn, 0⟩)
    "ts" ⟨TickersField.strList ["A"]⟩).2.2 ["A"] rfl (by simp)

/-- C7 (amended): for every non-empty ticker list and every outcome
sequence in which no chart attempt raises the uncaught IndexError (a 200
body whose first result has a present-but-empty quote list), the scraper
handler returns statusCode 200 and the quotes, sectors and betas maps
each contain an entry for every ticker of the list. -/
theorem C7_all_tickers_covered (env : String → TickerEnv) (now : String)
    (l : List String) (hne : l ≠ [])
    (hnc : ∀ s k, chartAttempt ((env s).chart k) ≠ AttemptStep.crash) :
    ∃ qm sm bm,
      (handler env now ⟨TickersField.strList l⟩).1 = HandlerResult.ok qm sm bm now ∧
      ∀ t ∈ l, (qm.lookup t).isSome ∧ (sm.lookup t).isSome ∧ (bm.lookup t).isSome := by
  obtain ⟨g0, g1, g2, g3, g4, g5, g6⟩ :=
    handlerLoop_keys_invariant env l initState hnc rfl rfl rfl rfl (by simp [initState])
  have hemp : l.isEmpty = false := by
    cases l with
    | nil => exact absurd rfl hne
    | cons a as => rfl
  refine ⟨(handlerLoop env l initState).1.quotes, (handlerLoop env l initState).1.sectors,
    (handlerLoop env l initState).1.betas, ?_, ?_⟩
  · simp only [handler, hemp, Bool.false_eq_true, if_false, g0]
  · intro t ht
    have hmem : t ∈ (handlerLoop env l initState).1.cache.map Prod.fst :=
      (g6 t).mpr (Or.inl ht)
    refine ⟨?_, ?_, ?_⟩
    · rw [lookup_isSome_iff, g1]; exact hmem
    · rw [lookup_isSome_iff, g2]; exact hmem
    · rw [lookup_isSome_iff, g3]; exact hmem

/-- C7 witness: one ticker, all attempts raise request exceptions; the
handler still returns 200 with entries for the ticker. -/
theorem C7_all_tickers_covered_witness :
    ∃ qm sm bm,
      (handler (fun _ => ⟨fun _ => ChartResp.exn, fun _ => InfoResp.exn, 0⟩) "ts"
        ⟨TickersField.strList ["A"]⟩).1 = HandlerResult.ok qm sm bm "ts" ∧
      ∀ t ∈ ["A"], (qm.lookup t).isSome ∧ (sm.lookup t).isSome ∧ (bm.lookup t).isSome :=
  C7_all_tickers_covered (fun _ => ⟨fun _ => ChartResp.exn, fun _ => InfoResp.exn, 0⟩)
    "ts" ["A"] (by simp) (fun s k => by simp [chartAttempt])

/-- C7 counterexample: with a single ticker and chart responses that are
HTTP 200 with a parseable body whose first result carries a
present-but-empty quote list (a malformed body), the scraper handler
returns statusCode 500, not 200. -/
theorem C7_counterexample :
    statusCode (handler (fun _ => ⟨fun _ => ChartResp.http 200 (some ⟨[⟨some []⟩]⟩),
      fun _ => InfoResp.exn, 0⟩) "ts" ⟨TickersField.strList ["A"]⟩).1 = 500 := rfl


/-- C9: the three response maps of the scraper loop are keyed
identically; each distinct ticker is fetched at most once, the fetch log
holding exactly the distinct input tickers; the final maps contain
exactly one entry per distinct ticker; and every lookup returns the
value computed by the single fetch of that ticker. -/
theorem C9_cache_invariant (env : String → TickerEnv) (l : List String)
    (hnc : ∀ s k, chartAttempt ((env s).chart k) ≠ AttemptStep.crash) :
    ((handlerLoop env l initState).1.quotes.map Prod.fst =
      (handlerLoop env l initState).1.sectors.map Prod.fst ∧
      (handlerLoop env l initState).1.quotes.map Prod.fst =
      (handlerLoop env l initState).1.betas.map Prod.fst) ∧
    (handlerLoop env l initState).1.fetched.Nodup ∧
    (∀ t, t ∈ (handlerLoop env l initState).1.fetched ↔ t ∈ l) ∧
    ((handlerLoop env l initState).1.quotes.map Prod.fst).Nodup ∧
    (∀ t, t ∈ (handlerLoop env l initState).1.quotes.map Prod.fst ↔ t ∈ l) ∧
    (∀ t ∈ l, ∀ q s b, processTicker (env t) t = some (q, s, b) →
      (handlerLoop env l initState).1.quotes.lookup t = some q ∧
      (handlerLoop env l initState).1.sectors.lookup t = some s ∧
      (handlerLoop env l initState).1.betas.lookup t = some b) := by
  obtain ⟨g0, g1, g2, g3, g4, g5, g6⟩ :=
    handlerLoop_keys_invariant env l initState hnc rfl rfl rfl rfl (by simp [initState])
  have hiff : ∀ t, t ∈ (handlerLoop env l initState).1.cache.map Prod.fst ↔ t ∈ l := by
    intro t
    rw [g6 t]
    simp [initState]
  refine ⟨⟨by rw [g1, g2], by rw [g1, g3]⟩, ?_, ?_, ?_, ?_, ?_⟩
  · rw [g4]; exact g5
  · intro t; rw [g4]; exact hiff t
  · rw [g1]; exact g5
  · intro t; rw [g1]; exact hiff t
  · intro t ht q s b hp
    obtain ⟨h1, h2, h3, _⟩ :=
      handlerLoop_first_value env l t q s b hnc hp initState WfState_init rfl ht
    exact ⟨h1, h2, h3⟩

/-- C9 witness: a duplicated ticker list is fetched without
duplicates. -/
theorem C9_cache_invariant_witness :
    (handlerLoop (fun _ => ⟨fun _ => ChartResp.exn, fun _ => InfoResp.exn, 0⟩)
      ["A", "B", "A"] initState).1.fetched.Nodup :=
  (C9_cache_invariant (fun _ => ⟨fun _ => ChartResp.exn, fun _ => InfoResp.exn, 0⟩)
    ["A", "B", "A"] (fun s k => by simp [chartAttempt])).2.1

/-- C2 (amended): when every chart attempt for a ticker fails, the
handler returns for that ticker the mock-table sector and beta
unchanged, and a quote whose fields are the rounded mock current price,
change and change percent, where the mock current price is the table
base price times one plus the random variation (not the bare table
price). -/
theorem C2_mock_fallback_values (env : String → TickerEnv) (now : String)
    (l : List String) (t : String)
    (qm : List (String × StockQuote)) (sm : List (String × String))
    (bm : List (String × ℚ)) (ts : String)
    (hnc : ∀ s k, chartAttempt ((env s).chart k) ≠ AttemptStep.crash)
    (ht : t ∈ l)
    (hfail : get_yahoo_chart_price (env t).chart 3 = ChartOut.failed)
    (hok : (handler env now ⟨TickersField.strList l⟩).1 = HandlerResult.ok qm sm bm ts) :
    sm.lookup t = some (get_mock_market_data t (env t).variation).2.2.2.2.1 ∧
    bm.lookup t = some (get_mock_market_data t (env t).variation).2.2.2.2.2 ∧
    qm.lookup t = some ⟨round2 ((get_mock_market_data t (env t).variation).1),
      round2 ((get_mock_market_data t (env t).variation).2.2.1),
      round2 ((get_mock_market_data t (env t).variation).2.2.2.1)⟩ ∧
    (get_mock_market_data t (env t).variation).2.2.2.2.1 = (mockEntry t).sector ∧
    (get_mock_market_data t (env t).variation).2.2.2.2.2 = (mockEntry t).beta ∧
    (get_mock_market_data t (env t).variation).1 =
      (mockEntry t).price * (1 + (env t).variation) := by
  have hp : processTicker (env t) t =
      some (⟨round2 ((get_mock_market_data t (env t).variation).1),
        round2 ((get_mock_market_data t (env t).variation).2.2.1),
        round2 ((get_mock_market_data t (env t).variation).2.2.2.1)⟩,
        (get_mock_market_data t (env t).variation).2.2.2.2.1,
        (get_mock_market_data t (env t).variation).2.2.2.2.2) := by
    simp only [processTicker, hfail]
  obtain ⟨h1, h2, h3, _⟩ :=
    handlerLoop_first_value env l t _ _ _ hnc hp initState WfState_init rfl ht
  obtain ⟨g0, _, _, _, _, _, _⟩ :=
    handlerLoop_keys_invariant env l initState hnc rfl rfl rfl rfl (by simp [initState])
  have hemp : l.isEmpty = false := by
    cases l with
    | nil => cases ht
    | cons a as => rfl
  simp only [handler, hemp, Bool.false_eq_true, if_false, g0] at hok
  obtain ⟨e1, e2, e3, e4⟩ := HandlerResult.ok.inj hok
  subst e1; subst e2; subst e3
  exact ⟨h2, h3, h1, rfl, rfl, rfl⟩

/-- C2 witness: unknown ticker Z with all chart attempts failing gets
the generic mock sector and beta. -/
theorem C2_mock_fallback_values_witness :
    (handlerLoop (fun _ => ⟨fun _ => ChartResp.exn, fun _ => InfoResp.exn, 0⟩)
      ["Z"] initState).1.sectors.lookup "Z" = some (mockEntry "Z").sector ∧
    (handlerLoop (fun _ => ⟨fun _ => ChartResp.exn, fun _ => InfoResp.exn, 0⟩)
      ["Z"] initState).1.betas.lookup "Z" = some (mockEntry "Z").beta := by
  have hok : (handler (fun _ => ⟨fun _ => ChartResp.exn, fun _ => InfoResp.exn, 0⟩)
      "ts" ⟨TickersField.strList ["Z"]⟩).1 =
      HandlerResult.ok
        (handlerLoop (fun _ => ⟨fun _ => ChartResp.exn, fun _ => InfoResp.exn, 0⟩)
          ["Z"] initState).1.quotes
        (handlerLoop (fun _ => ⟨fun _ => ChartResp.exn, fun _ => InfoResp.exn, 0⟩)
          ["Z"] initState).1.sectors
        (handlerLoop (fun _ => ⟨fun _ => ChartResp.exn, fun _ => InfoResp.exn, 0⟩)
          ["Z"] initState).1.betas "ts" := by
    have g0 : (handlerLoop (fun _ => ⟨fun _ => ChartResp.exn, fun _ => InfoResp.exn, 0⟩)
        ["Z"] initState).2 = false := rfl
    simp only [handler, List.isEmpty_cons, Bool.false_eq_true, if_false, g0]
  obtain ⟨h1, h2, _, h4, h5, _⟩ :=
    C2_mock_fallback_values (fun _ => ⟨fun _ => ChartResp.exn, fun _ => InfoResp.exn, 0⟩)
      "ts" ["Z"] "Z" _ _ _ "ts" (fun s k => by simp [chartAttempt]) (by simp) rfl hok
  exact ⟨by rw [h1, h4], by rw [h2, h5]⟩


/-- C2 counterexample: ticker AAPL with every chart attempt failing and
variation 0.02: the quote price the handler returns is 239.7, not the
mock-table price 235.0, so the quote is not the hardcoded table value
(sector and beta do match the table). -/
theorem C2_counterexample :
    get_yahoo_chart_price (fun _ => ChartResp.exn) 3 = ChartOut.failed ∧
    (resultQuotes (handler
      (fun _ => ⟨fun _ => ChartResp.exn, fun _ => InfoResp.exn, 1/50⟩)
      "ts" ⟨TickersField.strList ["AAPL"]⟩).1).lookup "AAPL" =
      some ⟨2397/10, 141/20, 303/100⟩ ∧
    (mockEntry "AAPL").price = 235 ∧
    (2397 : ℚ)/10 ≠ 235 := by
  have hm : mockEntry "AAPL" = ⟨235.0, "Technology", 1.2⟩ := rfl
  refine ⟨rfl, ?_, by rw [hm]; norm_num, by norm_num⟩
  simp only [handler, List.isEmpty_cons, Bool.false_eq_true, if_false,
    handlerLoop, initState, List.lookup, upsert, resultQuotes, beq_self_eq_true]
  norm_num [get_mock_market_data, hm, round2, round_eq]

/-- C8 (amended): on every event the three handler variants agree
exactly on the invalid-tickers condition for returning the 400 error,
and on a valid event the yfinance and stdlib variants always return a
200 body with the shared schema; but the variants are not the same
function, because their per-ticker fallback values differ. -/
theorem C8_same_gate_different_fallbacks (senv : String → TickerEnv)
    (yenv : String → YfEnv) (uenv : String → UEnv) (now : String)
    (ev : LambdaEvent) :
    (((handler senv now ev).1 = HandlerResult.badRequest) ↔
      invalidTickers ev.tickers = true) ∧
    ((yfHandler yenv now ev = HandlerResult.badRequest) ↔
      invalidTickers ev.tickers = true) ∧
    ((uHandler uenv now ev = HandlerResult.badRequest) ↔
      invalidTickers ev.tickers = true) ∧
    (invalidTickers ev.tickers = false →
      (∃ a b c, yfHandler yenv now ev = HandlerResult.ok a b c now) ∧
      (∃ a b c, uHandler uenv now ev = HandlerResult.ok a b c now)) := by
  obtain ⟨tf⟩ := ev
  cases tf with
  | absent => simp [handler, yfHandler, uHandler, invalidTickers]
  | nonList b => simp [handler, yfHandler, uHandler, invalidTickers]
  | strList l =>
    cases l with
    | nil => simp [handler, yfHandler, uHandler, invalidTickers]
    | cons u rest =>
      refine ⟨?_, ?_, ?_, fun _ => ⟨⟨_, _, _, rfl⟩, ⟨_, _, _, rfl⟩⟩⟩
      · simp only [invalidTickers, List.isEmpty_cons, Bool.false_eq_true, iff_false]
        intro hbad
        simp only [handler, List.isEmpty_cons, Bool.false_eq_true, if_false] at hbad
        split at hbad <;> simp_all
      · simp only [invalidTickers, List.isEmpty_cons, Bool.false_eq_true, iff_false]
        intro hbad
        simp [yfHandler] at hbad
      · simp only [invalidTickers, List.isEmpty_cons, Bool.false_eq_true, iff_false]
        intro hbad
        simp [uHandler] at hbad

/-- C8 witness: on a valid one-ticker event the yfinance and stdlib
variants return 200 bodies. -/
theorem C8_same_gate_different_fallbacks_witness :
    (∃ a b c, yfHandler (fun _ => ⟨none, none⟩) "ts"
      ⟨TickersField.strList ["A"]⟩ = HandlerResult.ok a b c "ts") ∧
    (∃ a b c, uHandler (fun _ => ⟨none, none⟩) "ts"
      ⟨TickersField.strList ["A"]⟩ = HandlerResult.ok a b c "ts") :=
  (C8_same_gate_different_fallbacks
    (fun _ => ⟨fun _ => ChartResp.exn, fun _ => InfoResp.exn, 0⟩)
    (fun _ => ⟨none, none⟩) (fun _ => ⟨none, none⟩) "ts"
    ⟨TickersField.strList ["A"]⟩).2.2.2 rfl

/-- C8 counterexample: on the unknown ticker ZZZ with every fetch
failing, the scraper falls back to the mock quote with price 100 while
the yfinance and stdlib variants fall back to price 0: the per-ticker
fallback values are not the same. -/
theorem C8_counterexample :
    (resultQuotes (handler
      (fun _ => ⟨fun _ => ChartResp.exn, fun _ => InfoResp.exn, 0⟩)
      "ts" ⟨TickersField.strList ["ZZZ"]⟩).1).lookup "ZZZ" = some ⟨100, 0, 0⟩ ∧
    (resultQuotes (uHandler (fun _ => ⟨none, none⟩) "ts"
      ⟨TickersField.strList ["ZZZ"]⟩)).lookup "ZZZ" = some ⟨0, 0, 0⟩ ∧
    (resultQuotes (yfHandler (fun _ => ⟨none, none⟩) "ts"
      ⟨TickersField.strList ["ZZZ"]⟩)).lookup "ZZZ" = some ⟨0, 0, 0⟩ ∧
    (⟨100, 0, 0⟩ : StockQuote) ≠ ⟨0, 0, 0⟩ := by
  have hm : mockEntry "ZZZ" = ⟨100.0, "Unknown", 1.0⟩ := rfl
  refine ⟨?_, rfl, rfl, ?_⟩
  · simp only [handler, List.isEmpty_cons, Bool.false_eq_true, if_false,
      handlerLoop, initState, List.lookup, upsert, resultQuotes, beq_self_eq_true]
    norm_num [get_mock_market_data, hm, round2, round_eq]
  · intro h
    obtain ⟨h1, -, -⟩ := StockQuote.mk.inj h
    norm_num at h1

end FinMate
